import Mathlib

/-!
Verification of the oedatamodel transform pipeline
(`src/oedatamodel_api/transform.py`).

The Python module converts a raw OEP tabular response
(`{description: [(name, kind, ...)], data: [[value, ...]]}`) into
normalized / concrete JSON and CSV-zip renderings.  We shallowly embed the
module: Python dicts become insertion-ordered association lists, Python
exceptions become an `Except Err` monad, and the zip archive is modelled as
the list of member files with their written CSV rows (byte-level CSV quoting
and DEFLATE compression are outside the claims under study).
-/

set_option linter.unusedVariables false

deriving instance DecidableEq for Except

namespace Oedatamodel

/-- A JSON scalar value appearing in a raw response cell (`None`, strings,
numbers are all the claims need). -/
inductive Value where
  | null
  | str (s : String)
  | int (n : Int)
deriving DecidableEq, Repr

/-- A column descriptor from `raw_json['description']`: the code reads
`column[0]` (the column name); the second component is the logical kind
shown in the spec's examples. -/
abbrev Desc := String × String

/-- One row of `raw_json['data']`. -/
abbrev Row := List Value

/-- A Python dict with string keys, as an insertion-ordered association
list whose keys are unique by construction of `dictSet`. -/
abbrev Dict := List (String × Value)

/-- The raw oedatamodel response: `{'description': [...], 'data': [...]}`. -/
structure RawJson where
  description : List Desc
  data : List Row
deriving DecidableEq, Repr

/-- Failure outcomes.  The first four are the Python exceptions the code can
actually raise; the remaining names are the error taxonomy the spec
postulates (§7), present so that claims about them can be stated. -/
inductive Err where
  | indexError
  | keyError
  | attributeError
  | typeError
  | malformedSchema
  | emptyDataset
  | unmatchedIdentifier
  | unsupportedShape
  | unsupportedFormat
deriving DecidableEq, Repr

/-- Python `lst[i]` for a non-negative index: `IndexError` when out of
range. -/
def pyGet (l : List α) (i : Nat) : Except Err α :=
  match l.get? i with
  | some x => .ok x
  | none => .error .indexError

/-- Python slice `lst[start:end]` (with `end` possibly `None`); clamps, never
raises. -/
def pySlice (l : List α) (start : Nat) (stop : Option Nat) : List α :=
  match stop with
  | none => l.drop start
  | some e => (l.take e).drop start

/-- First value stored under key `k`, if any (dict lookup without raising). -/
def dictGet? (d : Dict) (k : String) : Option Value :=
  (d.find? (fun p => p.1 = k)).map (fun p => p.2)

/-- Python `d[k]`: `KeyError` when the key is missing. -/
def pyDictGet (d : Dict) (k : String) : Except Err Value :=
  match dictGet? d k with
  | some v => .ok v
  | none => .error .keyError

/-- Python dict assignment `d[k] = v`: replaces in place when the key is
present (keeping its original position), appends otherwise. -/
def dictSet (d : Dict) (k : String) (v : Value) : Dict :=
  if d.any (fun p => p.1 = k) then
    d.map (fun p => if p.1 = k then (k, v) else p)
  else
    d ++ [(k, v)]

/-- Python `dict(pairs)`: left-to-right insertion. -/
def dictOfPairs (ps : List (String × Value)) : Dict :=
  ps.foldl (fun d p => dictSet d p.1 p.2) []

/-- Python `dict(zip(ks, vs))` (zip truncates to the shorter list). -/
def dictZip (ks : List String) (vs : List Value) : Dict :=
  dictOfPairs (ks.zip vs)

/-- Python `{**a, **b}`: start from `a` and assign each pair of `b` in
order. -/
def dictMerge (a b : Dict) : Dict :=
  b.foldl (fun d p => dictSet d p.1 p.2) a

/-- `get_data_indexes` helper: the list comprehension
`[i for i, column in enumerate(description) if column[0] == 'id']`,
unrolled with the running index made explicit. -/
def get_data_indexes_aux : Nat → List Desc → List Nat
  | _, [] => []
  | i, column :: rest =>
    if column.1 = "id" then i :: get_data_indexes_aux (i + 1) rest
    else get_data_indexes_aux (i + 1) rest

/-- `get_data_indexes(raw_json)`: positions of columns whose *name*
(`column[0]`) equals `"id"`. -/
def get_data_indexes (raw_json : RawJson) : List Nat :=
  get_data_indexes_aux 0 raw_json.description

/-- `get_scenario_data`'s loop `for i in range(n)`, unrolled: iteration `n`
runs after iterations `0..n-1`.  Each iteration reads
`description[i][0]` and `data[0][i]` (either read can raise `IndexError`)
and assigns into the accumulating dict. -/
def scenarioAux (raw_json : RawJson) : Nat → Except Err Dict
  | 0 => .ok []
  | n + 1 => do
    let scenario_data ← scenarioAux raw_json n
    let column ← pyGet raw_json.description n
    let row0 ← pyGet raw_json.data 0
    let v ← pyGet row0 n
    .ok (dictSet scenario_data column.1 v)

/-- `get_scenario_data(raw_json, scenario_columns)`. -/
def get_scenario_data (raw_json : RawJson) (scenario_columns : Nat) :
    Except Err Dict :=
  scenarioAux raw_json scenario_columns

/-- `get_multiple_rows_from_data`'s row loop: skip a row when
`row[start] is None` (reading `row[start]` may raise `IndexError`),
otherwise append `dict(zip(column_names, row[start:end]))`. -/
def rowsAux (column_names : List String) (start : Nat) (stop : Option Nat) :
    List Row → Except Err (List Dict)
  | [] => .ok []
  | row :: rest => do
    let v ← pyGet row start
    if v = Value.null then
      rowsAux column_names start stop rest
    else do
      let tail ← rowsAux column_names start stop rest
      .ok (dictZip column_names (pySlice row start stop) :: tail)

/-- `get_multiple_rows_from_data(raw_json, start, end)`. -/
def get_multiple_rows_from_data (raw_json : RawJson) (start : Nat)
    (stop : Option Nat) : Except Err (List Dict) := do
  let column_names := (pySlice raw_json.description start stop).map
    (fun column => column.1)
  rowsAux column_names start stop raw_json.data

/-- The normalized oedatamodel (`get_normalized_json`'s result dict). -/
structure NormalizedJson where
  oed_scenario : Dict
  oed_data : List Dict
  oed_scalars : List Dict
  oed_timeseries : List Dict
deriving DecidableEq, Repr

/-- `get_normalized_json(raw_json)`, with the source's evaluation order:
`table_indexes[1]` is read before the scenario call, `table_indexes[2]`
before the data call, `table_indexes[3]` before the timeseries call; each
subscript raises `IndexError` when fewer id columns exist. -/
def get_normalized_json (raw_json : RawJson) : Except Err NormalizedJson := do
  let table_indexes := get_data_indexes raw_json
  let i1 ← pyGet table_indexes 1
  let scenario ← get_scenario_data raw_json i1
  let i2 ← pyGet table_indexes 2
  let data ← get_multiple_rows_from_data raw_json i1 (some i2)
  let i3 ← pyGet table_indexes 3
  let timeseries ← get_multiple_rows_from_data raw_json i2 (some i3)
  let scalars ← get_multiple_rows_from_data raw_json i3 none
  .ok ⟨scenario, data, scalars, timeseries⟩

/-- The concrete oedatamodel (`get_concrete_json`'s result dict). -/
structure ConcreteJson where
  oed_scenario : Dict
  oed_scalars : List Dict
  oed_timeseries : List Dict
deriving DecidableEq, Repr

/-- The jmespath query ``[?id==`data_id`] | [0]``: first element of the list
whose `id` field equals the literal, `None` when there is none. -/
def jmespathFirstById (data_id : Value) (l : List Dict) : Option Dict :=
  l.find? (fun entry => dictGet? entry "id" = some data_id)

/-- `get_concrete_json`'s loop over `normalized_json['oed_data']`, returning
the two output lists.  `data['id']` raises `KeyError` when absent; when
neither section matches, Python evaluates `entry.items()` on `None` and
raises `AttributeError`. -/
def concreteLoop (scalars timeseries : List Dict) :
    List Dict → Except Err (List Dict × List Dict)
  | [] => .ok ([], [])
  | data :: rest => do
    let data_id ← pyDictGet data "id"
    match jmespathFirstById data_id scalars with
    | some entry => do
      let concrete_entry := dictMerge data
        (entry.filter (fun p => !(p.1 = "id" : Bool)))
      let (s, t) ← concreteLoop scalars timeseries rest
      .ok (concrete_entry :: s, t)
    | none =>
      match jmespathFirstById data_id timeseries with
      | some entry => do
        let concrete_entry := dictMerge data
          (entry.filter (fun p => !(p.1 = "id" : Bool)))
        let (s, t) ← concreteLoop scalars timeseries rest
        .ok (s, concrete_entry :: t)
      | none => .error .attributeError

/-- `get_concrete_json(raw_json)`. -/
def get_concrete_json (raw_json : RawJson) : Except Err ConcreteJson := do
  let normalized_json ← get_normalized_json raw_json
  let (scalars, timeseries) ← concreteLoop normalized_json.oed_scalars
    normalized_json.oed_timeseries normalized_json.oed_data
  .ok ⟨normalized_json.oed_scenario, scalars, timeseries⟩

/-- A value of the top-level dict handed to `create_zip_csv`: a single
mapping, a list of mappings, or anything else (the `TypeError` branch). -/
inductive Section' where
  | dict (d : Dict)
  | list (l : List Dict)
  | other
deriving DecidableEq, Repr

/-- The rows `create_zip_csv` writes for one section: a dict yields its key
row then its value row; a list yields the first mapping's keys as header
(`data[0]` raises `IndexError` on an empty list) then one value row per
entry; anything else raises `TypeError`. -/
def csvOfSection : Section' → Except Err (List (List Value))
  | .dict d => .ok [d.map (fun p => Value.str p.1), d.map (fun p => p.2)]
  | .list l => do
    let first ← pyGet l 0
    .ok (first.map (fun p => Value.str p.1) ::
      l.map (fun row => row.map (fun p => p.2)))
  | .other => .error .typeError

/-- `create_zip_csv(json)`: iterate the named sections in order, rendering
each to a `"<name>.csv"` member; the first exception propagates and no
archive is returned. -/
def create_zip_csv : List (String × Section') →
    Except Err (List (String × List (List Value)))
  | [] => .ok []
  | (name, data) :: rest => do
    let csv_data ← csvOfSection data
    let tail ← create_zip_csv rest
    .ok ((name ++ ".csv", csv_data) :: tail)

/-- Iteration order of the normalized result dict (`json.items()` in
`create_zip_csv`): insertion order of `get_normalized_json`'s literal. -/
def NormalizedJson.items (n : NormalizedJson) : List (String × Section') :=
  [("oed_scenario", .dict n.oed_scenario),
   ("oed_data", .list n.oed_data),
   ("oed_scalars", .list n.oed_scalars),
   ("oed_timeseries", .list n.oed_timeseries)]

/-- Iteration order of the concrete result dict. -/
def ConcreteJson.items (c : ConcreteJson) : List (String × Section') :=
  [("oed_scenario", .dict c.oed_scenario),
   ("oed_scalars", .list c.oed_scalars),
   ("oed_timeseries", .list c.oed_timeseries)]

/-- `get_normalized_csv(raw_json)`. -/
def get_normalized_csv (raw_json : RawJson) :
    Except Err (List (String × List (List Value))) := do
  let normalized_json ← get_normalized_json raw_json
  create_zip_csv normalized_json.items

/-- `get_concrete_csv(raw_json)`. -/
def get_concrete_csv (raw_json : RawJson) :
    Except Err (List (String × List (List Value))) := do
  let concrete_json ← get_concrete_json raw_json
  create_zip_csv concrete_json.items

/-- What `format_data` can hand back to its caller. -/
inductive Output where
  | rawJson (r : RawJson)
  | normalized (n : NormalizedJson)
  | concrete (c : ConcreteJson)
  | zipped (z : List (String × List (List Value)))
  | noneVal
deriving DecidableEq, Repr

/-- `format_data(raw_json, data_format)`.  `OedataFormat` is a `str` enum,
so the comparisons are plain string equality; an unrecognized token falls
through every branch to the trailing `return None`. -/
def format_data (raw_json : RawJson) (data_format : String) :
    Except Err Output :=
  if data_format = "raw" then .ok (.rawJson raw_json)
  else if data_format = "json_normalized" then
    (get_normalized_json raw_json).map .normalized
  else if data_format = "json_concrete" then
    (get_concrete_json raw_json).map .concrete
  else if data_format = "csv_normalized" then
    (get_normalized_csv raw_json).map .zipped
  else if data_format = "csv_concrete" then
    (get_concrete_csv raw_json).map .zipped
  else .ok .noneVal

/-- The match `get_concrete_json`'s loop finds for a data entry in a section
list: its `id` value looked up by the jmespath query (`none` when the entry
has no `id` key or no section element matches). -/
def scalarMatch (l : List Dict) (d : Dict) : Option Dict :=
  match dictGet? d "id" with
  | some i => jmespathFirstById i l
  | none => none

/-- The merged entry `{**data, **{k: v for k, v in entry.items() if k != 'id'}}`
built from a data entry and its match in `l` (the entry itself when there is
no match — that case is unreachable under the theorems' hypotheses). -/
def mergeEntry (l : List Dict) (d : Dict) : Dict :=
  match scalarMatch l d with
  | some entry => dictMerge d (entry.filter (fun p => !(p.1 = "id" : Bool)))
  | none => d

/-- The spec §8 example input: descriptors carry `"id"` in their kind field;
only three columns are *named* `"id"`. -/
def specExampleRaw : RawJson :=
  ⟨[("scenario_id", "id"), ("name", "text"), ("id", "id"), ("value", "num"),
    ("id", "id"), ("ts", "json"), ("id", "id"), ("region", "text")],
   [[.str "S1", .str "run-a", .str "D1", .int 10, .null, .null,
     .str "SC1", .str "east"]]⟩

/-- A well-formed response with four columns named `"id"` whose single data
entry (`id = "D1"`) has a matching scalars entry. -/
def matchedRaw : RawJson :=
  ⟨[("id", "id"), ("a", "text"), ("id", "id"), ("v", "num"),
    ("id", "id"), ("t", "json"), ("id", "id"), ("r", "text")],
   [[.str "s", .str "x", .str "D1", .int 1, .null, .null,
     .str "D1", .str "e"]]⟩

/-- Normalization of `matchedRaw` (its timeseries section is empty: the row's
timeseries id slot is null). -/
def matchedNorm : NormalizedJson :=
  ⟨[("id", .str "s"), ("a", .str "x")],
   [[("id", .str "D1"), ("v", .int 1)]],
   [[("id", .str "D1"), ("r", .str "e")]],
   []⟩

/-- Like `matchedRaw`, but the data entry's id `"D1"` matches neither the
scalars entry (`id = "SC9"`) nor the (empty) timeseries section. -/
def unmatchedRaw : RawJson :=
  ⟨[("id", "id"), ("a", "text"), ("id", "id"), ("v", "num"),
    ("id", "id"), ("t", "json"), ("id", "id"), ("r", "text")],
   [[.str "s", .str "x", .str "D1", .int 1, .null, .null,
     .str "SC9", .str "e"]]⟩

/-- A response with a single column (one column named `"id"`) and no rows. -/
def tinyRaw : RawJson :=
  ⟨[("id", "id")], []⟩

/-! ## Basic lemmas about the Python-operation helpers -/

theorem ok_bind {ε α β : Type} (x : α) (f : α → Except ε β) :
    (do let y ← Except.ok x; f y) = f x := rfl

theorem error_bind {ε α β : Type} (e : ε) (f : α → Except ε β) :
    (do let y ← (Except.error e : Except ε α); f y) = Except.error e := rfl

theorem pyGet_of_get? {l : List α} {i : Nat} {x : α} (h : l.get? i = some x) :
    pyGet l i = .ok x := by
  unfold pyGet; rw [h]

theorem pyGet_err {l : List α} {i : Nat} (h : l.length ≤ i) :
    pyGet l i = .error .indexError := by
  unfold pyGet; rw [List.get?_eq_none.mpr h]

/-! ## The Column Indexer -/

theorem mem_get_data_indexes_aux (l : List Desc) :
    ∀ (n i : Nat), i ∈ get_data_indexes_aux n l ↔
      ∃ d, n ≤ i ∧ l.get? (i - n) = some d ∧ d.1 = "id" := by
  induction l with
  | nil => intro n i; simp [get_data_indexes_aux]
  | cons c cs ih =>
    intro n i
    simp only [get_data_indexes_aux]
    have hsub : n + 1 ≤ i → i - n = (i - (n + 1)) + 1 := by omega
    by_cases h : c.1 = "id"
    · rw [if_pos h]
      simp only [List.mem_cons, ih (n + 1) i]
      constructor
      · rintro (rfl | ⟨d, hni, hget, hid⟩)
        · exact ⟨c, le_refl _, by simp, h⟩
        · refine ⟨d, by omega, ?_, hid⟩
          rw [hsub hni]; simpa using hget
      · rintro ⟨d, hni, hget, hid⟩
        by_cases hin : i = n
        · exact Or.inl hin
        · refine Or.inr ⟨d, by omega, ?_, hid⟩
          rw [hsub (by omega)] at hget; simpa using hget
    · rw [if_neg h, ih (n + 1) i]
      constructor
      · rintro ⟨d, hni, hget, hid⟩
        refine ⟨d, by omega, ?_, hid⟩
        rw [hsub hni]; simpa using hget
      · rintro ⟨d, hni, hget, hid⟩
        by_cases hin : i = n
        · subst hin
          have : c = d := by simpa using hget
          exact absurd (this ▸ hid) h
        · refine ⟨d, by omega, ?_, hid⟩
          rw [hsub (by omega)] at hget; simpa using hget

theorem get_data_indexes_aux_ge {l : List Desc} {n i : Nat}
    (h : i ∈ get_data_indexes_aux n l) : n ≤ i := by
  obtain ⟨d, hni, -, -⟩ := (mem_get_data_indexes_aux l n i).mp h
  exact hni

theorem get_data_indexes_aux_sorted (l : List Desc) :
    ∀ n, List.Sorted (· < ·) (get_data_indexes_aux n l) := by
  induction l with
  | nil => intro n; simp [get_data_indexes_aux]
  | cons c cs ih =>
    intro n
    simp only [get_data_indexes_aux]
    by_cases h : c.1 = "id"
    · rw [if_pos h]
      refine List.sorted_cons.mpr ⟨fun b hb => ?_, ih (n + 1)⟩
      have := get_data_indexes_aux_ge hb
      omega
    · rw [if_neg h]; exact ih (n + 1)

theorem mem_get_data_indexes {raw : RawJson} {i : Nat} :
    i ∈ get_data_indexes raw ↔
      ∃ d, raw.description.get? i = some d ∧ d.1 = "id" := by
  rw [get_data_indexes, mem_get_data_indexes_aux]
  simp

theorem mem_get_data_indexes_lt {raw : RawJson} {i : Nat}
    (h : i ∈ get_data_indexes raw) : i < raw.description.length := by
  obtain ⟨d, hget, -⟩ := mem_get_data_indexes.mp h
  exact List.get?_eq_some.mp hget |>.1

/-- C1.  The claim says positions are selected by the descriptor's *kind*
field; the code tests `column[0]`, the descriptor's *name*.  A descriptor
named `"x"` with kind `"id"` is not selected. -/
theorem claim1_kind_counterexample :
    ¬ (0 ∈ get_data_indexes ⟨[("x", "id")], []⟩ ↔
        ∃ d, (RawJson.mk [("x", "id")] []).description.get? 0 = some d ∧
          d.2 = "id") := by
  decide

/-- C1 (amended).  `get_data_indexes` returns, in ascending scan order, the
0-based positions of exactly those descriptors whose *name* (`column[0]`)
equals `"id"`: position `i` is in the result iff descriptor `i`'s name field
is `"id"`, and the result is strictly increasing. -/
theorem claim1_id_positions (raw : RawJson) (i : Nat) :
    (i ∈ get_data_indexes raw ↔
      ∃ d, raw.description.get? i = some d ∧ d.1 = "id")
    ∧ List.Sorted (· < ·) (get_data_indexes raw) :=
  ⟨mem_get_data_indexes, get_data_indexes_aux_sorted raw.description 0⟩

/-- C2.  On the spec's example input, normalization does not produce the
stated output: it raises `IndexError` (only three columns are *named*
`"id"`, so `table_indexes[3]` is out of range). -/
theorem claim2_example_counterexample :
    get_normalized_json specExampleRaw = .error .indexError := by
  decide

/-- C2 (amended).  On the spec's example input the indexer finds only the
three columns named `"id"` (positions 2, 4, 6 — the example encodes `"id"`
in the kind field, which the code never reads), so normalization and
concretization both raise `IndexError` instead of the stated output. -/
theorem claim2_example_fails :
    get_data_indexes specExampleRaw = [2, 4, 6]
    ∧ get_normalized_json specExampleRaw = .error .indexError
    ∧ get_concrete_json specExampleRaw = .error .indexError := by
  refine ⟨by decide, by decide, by decide⟩

/-! ## Dict lemmas: insertion with fresh keys is append -/

theorem dictSet_of_fresh {d : Dict} {k : String} {v : Value}
    (h : k ∉ d.map Prod.fst) : dictSet d k v = d ++ [(k, v)] := by
  rw [dictSet, if_neg]
  intro hc
  obtain ⟨p, hp, hpk⟩ := List.any_eq_true.mp hc
  exact h (by simpa [of_decide_eq_true hpk] using List.mem_map_of_mem Prod.fst hp)

theorem foldl_dictSet_of_nodup :
    ∀ (ps : List (String × Value)) (d : Dict),
      (d.map Prod.fst ++ ps.map Prod.fst).Nodup →
      ps.foldl (fun d p => dictSet d p.1 p.2) d = d ++ ps := by
  intro ps
  induction ps with
  | nil => intro d _; simp
  | cons p ps ih =>
    intro d hnd
    have hfresh : p.1 ∉ d.map Prod.fst := by
      intro hmem
      have := (List.nodup_append.mp hnd).2.2
      exact this hmem (by simp)
    have hnd' : ((d ++ [p]).map Prod.fst ++ ps.map Prod.fst).Nodup := by
      simpa using hnd
    calc (p :: ps).foldl (fun d q => dictSet d q.1 q.2) d
        = ps.foldl (fun d q => dictSet d q.1 q.2) (d ++ [p]) := by
          simp [dictSet_of_fresh hfresh]
      _ = (d ++ [p]) ++ ps := ih (d ++ [p]) hnd'
      _ = d ++ p :: ps := by simp

theorem dictOfPairs_of_nodup {ps : List (String × Value)}
    (h : (ps.map Prod.fst).Nodup) : dictOfPairs ps = ps := by
  have := foldl_dictSet_of_nodup ps [] (by simpa using h)
  simpa [dictOfPairs] using this

theorem map_fst_zip_sublist :
    ∀ (ks : List String) (vs : List Value),
      List.Sublist ((ks.zip vs).map Prod.fst) ks := by
  intro ks
  induction ks with
  | nil => intro vs; simp
  | cons k ks ih =>
    intro vs
    cases vs with
    | nil => simp
    | cons v vs => simpa using (ih vs).cons₂ k

theorem dictZip_of_nodup {ks : List String} {vs : List Value}
    (h : ks.Nodup) : dictZip ks vs = ks.zip vs :=
  dictOfPairs_of_nodup (h.sublist (map_fst_zip_sublist ks vs))

/-! ## The Scenario Extractor -/

theorem dictOfPairs_append_single (ps : List (String × Value)) (k : String)
    (v : Value) : dictOfPairs (ps ++ [(k, v)]) = dictSet (dictOfPairs ps) k v := by
  simp [dictOfPairs, List.foldl_append]

theorem scenarioAux_ok (raw : RawJson) (row0 : Row) (drest : List Row)
    (hdata : raw.data = row0 :: drest) :
    ∀ n, n ≤ raw.description.length → n ≤ row0.length →
      scenarioAux raw n = .ok (dictOfPairs
        (((raw.description.take n).map Prod.fst).zip (row0.take n))) := by
  intro n
  induction n with
  | zero => intro _ _; simp [scenarioAux, dictOfPairs]
  | succ m ih =>
    intro h1 h2
    have hm1 : m < raw.description.length := by omega
    have hm2 : m < row0.length := by omega
    have hc : raw.description.get? m = some (raw.description.get ⟨m, hm1⟩) :=
      List.get?_eq_get hm1
    have hv : row0.get? m = some (row0.get ⟨m, hm2⟩) := List.get?_eq_get hm2
    have hrow : pyGet raw.data 0 = .ok row0 := by
      rw [hdata]; rfl
    simp only [scenarioAux]
    rw [ih (by omega) (by omega), ok_bind, pyGet_of_get? hc, ok_bind, hrow,
      ok_bind, pyGet_of_get? hv, ok_bind]
    have htake1 : (raw.description.take (m + 1)).map Prod.fst =
        (raw.description.take m).map Prod.fst ++
          [(raw.description.get ⟨m, hm1⟩).1] := by
      rw [List.take_succ, List.getElem?_eq_getElem hm1, List.map_append]
      simp [List.get_eq_getElem]
    have htake2 : row0.take (m + 1) = row0.take m ++ [row0.get ⟨m, hm2⟩] := by
      rw [List.take_succ, List.getElem?_eq_getElem hm2]
      simp [List.get_eq_getElem]
    rw [htake1, htake2, List.zip_append (by simp; omega)]
    simp only [List.zip_cons_cons, List.zip_nil_left, List.zip_nil_right]
    rw [dictOfPairs_append_single]

theorem scenarioAux_empty_data (raw : RawJson) (hdata : raw.data = []) :
    ∀ n, 0 < n → scenarioAux raw n = .error .indexError := by
  intro n
  induction n with
  | zero => intro h; omega
  | succ m ih =>
    intro _
    simp only [scenarioAux]
    cases m with
    | zero =>
      cases hdesc : raw.description with
      | nil => rfl
      | cons c cs => rw [hdata]; rfl
    | succ k =>
      rw [ih (by omega), error_bind]

/-- C7.  With an empty `data` list and one scenario column, the code raises
`IndexError` (`data[0]` is out of range), not the spec's `EmptyDataset`. -/
theorem claim7_empty_counterexample :
    get_scenario_data tinyRaw 1 = .error .indexError
    ∧ get_scenario_data tinyRaw 1 ≠ .error .emptyDataset := by
  refine ⟨by decide, by decide⟩

/-- C7 (amended).  For every raw response whose `data` list is empty and
every positive header width, `get_scenario_data` fails with `IndexError`
(the read of `data[0]` — or of `description[0]` when that too is empty —
is out of range); the code has no `EmptyDataset` error. -/
theorem claim7_empty_data (raw : RawJson) (n : Nat)
    (hdata : raw.data = []) (hn : 0 < n) :
    get_scenario_data raw n = .error .indexError :=
  scenarioAux_empty_data raw hdata n hn

theorem claim7_witness :
    tinyRaw.data = [] ∧ 0 < 1
    ∧ get_scenario_data tinyRaw 1 = .error .indexError :=
  ⟨rfl, by decide, claim7_empty_data tinyRaw 1 rfl (by decide)⟩

/-! ## The Normalizer -/

theorem get_normalized_json_eq (raw : RawJson) (p0 p1 p2 p3 : Nat)
    (rest : List Nat)
    (hidx : get_data_indexes raw = p0 :: p1 :: p2 :: p3 :: rest) :
    get_normalized_json raw = (do
      let scenario ← get_scenario_data raw p1
      let data ← get_multiple_rows_from_data raw p1 (some p2)
      let timeseries ← get_multiple_rows_from_data raw p2 (some p3)
      let scalars ← get_multiple_rows_from_data raw p3 none
      Except.ok ⟨scenario, data, scalars, timeseries⟩) := by
  unfold get_normalized_json
  rw [hidx]
  rfl

/-- C4.  For a well-formed response with at least four id-named columns at
positions `p0 < p1 < p2 < p3` and a first row `row0`, the scenario mapping
is exactly the first `p1` column names zipped with `row0`'s first `p1`
values, both directly from `get_scenario_data` and inside any successful
`get_normalized_json` result.  (Key uniqueness of the header names is the
well-formedness assumption that makes "mapping with exactly these keys"
meaningful.) -/
theorem claim4_scenario_header (raw : RawJson) (p0 p1 p2 p3 : Nat)
    (rest : List Nat) (row0 : Row) (drest : List Row)
    (hidx : get_data_indexes raw = p0 :: p1 :: p2 :: p3 :: rest)
    (hdata : raw.data = row0 :: drest)
    (hlen : row0.length = raw.description.length)
    (hnodup : ((raw.description.take p1).map Prod.fst).Nodup) :
    get_scenario_data raw p1 =
      .ok (((raw.description.take p1).map Prod.fst).zip (row0.take p1))
    ∧ ∀ n, get_normalized_json raw = .ok n →
        n.oed_scenario =
          ((raw.description.take p1).map Prod.fst).zip (row0.take p1) := by
  have hp1mem : p1 ∈ get_data_indexes raw := by rw [hidx]; simp
  have hp1 : p1 < raw.description.length := mem_get_data_indexes_lt hp1mem
  have hfirst : get_scenario_data raw p1 =
      .ok (((raw.description.take p1).map Prod.fst).zip (row0.take p1)) := by
    rw [get_scenario_data,
      scenarioAux_ok raw row0 drest hdata p1 (by omega) (by omega),
      dictOfPairs_of_nodup (hnodup.sublist (map_fst_zip_sublist _ _))]
  refine ⟨hfirst, ?_⟩
  intro n hn
  rw [get_normalized_json_eq raw p0 p1 p2 p3 rest hidx, hfirst, ok_bind] at hn
  cases hd : get_multiple_rows_from_data raw p1 (some p2) with
  | error e => rw [hd, error_bind] at hn; simp at hn
  | ok data =>
    rw [hd, ok_bind] at hn
    cases ht : get_multiple_rows_from_data raw p2 (some p3) with
    | error e => rw [ht, error_bind] at hn; simp at hn
    | ok timeseries =>
      rw [ht, ok_bind] at hn
      cases hs : get_multiple_rows_from_data raw p3 none with
      | error e => rw [hs, error_bind] at hn; simp at hn
      | ok scalars =>
        rw [hs, ok_bind] at hn
        injection hn with hn
        rw [← hn]

theorem claim4_witness :
    get_data_indexes matchedRaw = 0 :: 2 :: 4 :: 6 :: []
    ∧ matchedRaw.data = [Value.str "s", Value.str "x", Value.str "D1",
        Value.int 1, Value.null, Value.null, Value.str "D1", Value.str "e"] :: []
    ∧ get_scenario_data matchedRaw 2 =
        .ok (((matchedRaw.description.take 2).map Prod.fst).zip
          (List.take 2 [Value.str "s", Value.str "x", Value.str "D1",
            Value.int 1, Value.null, Value.null, Value.str "D1",
            Value.str "e"])) :=
  ⟨by decide, by decide,
    (claim4_scenario_header matchedRaw 0 2 4 6 []
      [Value.str "s", Value.str "x", Value.str "D1", Value.int 1,
        Value.null, Value.null, Value.str "D1", Value.str "e"] []
      (by decide) (by decide) (by decide) (by decide)).1⟩

/-! ## Fewer than four id columns: every failure inside normalization is an
`IndexError` -/

theorem pyGet_shape (l : List α) (i : Nat) :
    (∃ x, pyGet l i = .ok x) ∨ pyGet l i = .error .indexError := by
  unfold pyGet
  cases l.get? i with
  | none => exact Or.inr rfl
  | some x => exact Or.inl ⟨x, rfl⟩

theorem scenarioAux_shape (raw : RawJson) :
    ∀ n, (∃ d, scenarioAux raw n = .ok d)
      ∨ scenarioAux raw n = .error .indexError := by
  intro n
  induction n with
  | zero => exact Or.inl ⟨[], rfl⟩
  | succ m ih =>
    simp only [scenarioAux]
    rcases ih with ⟨d, hd⟩ | hd
    · rw [hd, ok_bind]
      rcases pyGet_shape raw.description m with ⟨c, hc⟩ | hc
      · rw [hc, ok_bind]
        rcases pyGet_shape raw.data 0 with ⟨r, hr⟩ | hr
        · rw [hr, ok_bind]
          rcases pyGet_shape r m with ⟨v, hv⟩ | hv
          · rw [hv, ok_bind]; exact Or.inl ⟨_, rfl⟩
          · rw [hv, error_bind]; exact Or.inr rfl
        · rw [hr, error_bind]; exact Or.inr rfl
      · rw [hc, error_bind]; exact Or.inr rfl
    · rw [hd, error_bind]; exact Or.inr rfl

theorem rowsAux_shape (column_names : List String) (start : Nat)
    (stop : Option Nat) :
    ∀ rows : List Row,
      (∃ l, rowsAux column_names start stop rows = .ok l)
      ∨ rowsAux column_names start stop rows = .error .indexError := by
  intro rows
  induction rows with
  | nil => exact Or.inl ⟨[], rfl⟩
  | cons row rest ih =>
    simp only [rowsAux]
    rcases pyGet_shape row start with ⟨v, hv⟩ | hv
    · rw [hv, ok_bind]
      by_cases hnull : v = Value.null
      · rw [if_pos hnull]; exact ih
      · rw [if_neg hnull]
        rcases ih with ⟨l, hl⟩ | hl
        · rw [hl, ok_bind]; exact Or.inl ⟨_, rfl⟩
        · rw [hl, error_bind]; exact Or.inr rfl
    · rw [hv, error_bind]; exact Or.inr rfl

theorem gmr_shape (raw : RawJson) (start : Nat) (stop : Option Nat) :
    (∃ l, get_multiple_rows_from_data raw start stop = .ok l)
    ∨ get_multiple_rows_from_data raw start stop = .error .indexError :=
  rowsAux_shape _ start stop raw.data

/-- C6.  With a single id-named column (fewer than four), normalization
fails with `IndexError`, not the spec's `MalformedSchema`. -/
theorem claim6_schema_counterexample :
    get_normalized_json tinyRaw = .error .indexError
    ∧ get_normalized_json tinyRaw ≠ .error .malformedSchema := by
  refine ⟨by decide, by decide⟩

/-- C6 (amended).  For every raw response whose description has fewer than
four columns named `"id"`, normalization fails with an out-of-range
`IndexError` (there is no `MalformedSchema` validation in the code: the
subscripts `table_indexes[1..3]` and the per-row reads are the only failure
points, and all raise `IndexError`). -/
theorem claim6_too_few_ids (raw : RawJson)
    (h : (get_data_indexes raw).length < 4) :
    get_normalized_json raw = .error .indexError := by
  unfold get_normalized_json
  rcases hl : get_data_indexes raw with - | ⟨a, - | ⟨b, - | ⟨c, - | ⟨d, rest⟩⟩⟩⟩
  · rfl
  · rfl
  · dsimp only
    rw [show pyGet [a, b] 1 = Except.ok b from rfl, ok_bind]
    simp only [get_scenario_data]
    rcases scenarioAux_shape raw b with ⟨sc, hsc⟩ | hsc
    · rw [hsc, ok_bind, show pyGet [a, b] 2 =
        (Except.error Err.indexError : Except Err Nat) from rfl, error_bind]
    · rw [hsc, error_bind]
  · dsimp only
    rw [show pyGet [a, b, c] 1 = Except.ok b from rfl, ok_bind]
    simp only [get_scenario_data]
    rcases scenarioAux_shape raw b with ⟨sc, hsc⟩ | hsc
    · rw [hsc, ok_bind, show pyGet [a, b, c] 2 = Except.ok c from rfl, ok_bind]
      rcases gmr_shape raw b (some c) with ⟨dl, hdl⟩ | hdl
      · rw [hdl, ok_bind, show pyGet [a, b, c] 3 =
          (Except.error Err.indexError : Except Err Nat) from rfl, error_bind]
      · rw [hdl, error_bind]
    · rw [hsc, error_bind]
  · rw [hl] at h
    simp at h
    omega

theorem claim6_witness :
    (get_data_indexes tinyRaw).length < 4
    ∧ get_normalized_json tinyRaw = .error .indexError :=
  ⟨by decide, claim6_too_few_ids tinyRaw (by decide)⟩

/-! ## The Table Partitioner: row-skip law -/

theorem rowsAux_ok (column_names : List String) (start : Nat)
    (stop : Option Nat) :
    ∀ rows : List Row, (∀ r ∈ rows, start < r.length) →
      rowsAux column_names start stop rows = .ok
        ((rows.filter (fun r => !decide (r.get? start = some Value.null))).map
          (fun r => dictZip column_names (pySlice r start stop))) := by
  intro rows
  induction rows with
  | nil => intro _; rfl
  | cons row rest ih =>
    intro h
    have hlt : start < row.length := h row (by simp)
    have hrest : ∀ r ∈ rest, start < r.length :=
      fun r hr => h r (List.mem_cons_of_mem _ hr)
    obtain ⟨v, hv⟩ : ∃ v, row.get? start = some v :=
      ⟨row.get ⟨start, hlt⟩, List.get?_eq_get hlt⟩
    simp only [rowsAux]
    rw [pyGet_of_get? hv, ok_bind, List.filter_cons]
    by_cases hnull : v = Value.null
    · have hpred : (!decide (row.get? start = some Value.null)) = false := by
        rw [hv, hnull]; simp
      rw [if_pos hnull, ih hrest, hpred]
      simp
    · have hpred : (!decide (row.get? start = some Value.null)) = true := by
        simp only [hv, Bool.not_eq_true', decide_eq_false_iff_not]
        intro hc
        exact hnull (Option.some.inj hc)
      rw [if_neg hnull, ih hrest, ok_bind, hpred]
      simp

/-- C3.  Row-skip law of `get_multiple_rows_from_data`: over rows long
enough to index (the well-formedness precondition), a row survives iff its
value at position `start` is not null; each survivor becomes the mapping
pairing the sliced column names with the row's `[start, stop)` values (a
plain zip, the sliced names being distinct), and survivors keep their
original relative order — the result is exactly a filter-then-map of the
input rows. -/
theorem claim3_row_skip_law (raw : RawJson) (start : Nat) (stop : Option Nat)
    (hlen : ∀ r ∈ raw.data, start < r.length)
    (hnodup : ((pySlice raw.description start stop).map Prod.fst).Nodup) :
    get_multiple_rows_from_data raw start stop = .ok
      ((raw.data.filter
          (fun r => !decide (r.get? start = some Value.null))).map
        (fun r => ((pySlice raw.description start stop).map Prod.fst).zip
          (pySlice r start stop))) := by
  unfold get_multiple_rows_from_data
  dsimp only
  rw [rowsAux_ok _ start stop raw.data hlen]
  simp only [dictZip_of_nodup hnodup]

theorem claim3_witness :
    (∀ r ∈ matchedRaw.data, 4 < r.length)
    ∧ get_multiple_rows_from_data matchedRaw 4 (some 6) = .ok
        ((matchedRaw.data.filter
            (fun r => !decide (r.get? 4 = some Value.null))).map
          (fun r => ((pySlice matchedRaw.description 4 (some 6)).map
            Prod.fst).zip (pySlice r 4 (some 6)))) :=
  ⟨by decide, claim3_row_skip_law matchedRaw 4 (some 6) (by decide) (by decide)⟩

/-! ## The Concretizer -/

theorem scalarMatch_eq_of_get {l : List Dict} {d : Dict} {i : Value}
    (hg : dictGet? d "id" = some i) :
    scalarMatch l d = jmespathFirstById i l := by
  unfold scalarMatch; rw [hg]

theorem scalarMatch_some {l : List Dict} {d e : Dict}
    (h : scalarMatch l d = some e) :
    ∃ i, dictGet? d "id" = some i ∧ jmespathFirstById i l = some e := by
  unfold scalarMatch at h
  cases hg : dictGet? d "id" with
  | none => rw [hg] at h; cases h
  | some i => rw [hg] at h; exact ⟨i, rfl, h⟩

theorem mergeEntry_of_some {l : List Dict} {d e : Dict}
    (h : scalarMatch l d = some e) :
    mergeEntry l d = dictMerge d (e.filter (fun p => !(p.1 = "id" : Bool))) := by
  unfold mergeEntry; rw [h]

theorem pyDictGet_of_get {d : Dict} {k : String} {v : Value}
    (h : dictGet? d k = some v) : pyDictGet d k = .ok v := by
  unfold pyDictGet; rw [h]

theorem length_filter_partition (p : α → Bool) :
    ∀ l : List α,
      (l.filter p).length + (l.filter (fun a => !p a)).length = l.length := by
  intro l
  induction l with
  | nil => rfl
  | cons a l ih =>
    rw [List.filter_cons, List.filter_cons]
    by_cases h : p a
    · rw [if_pos h, if_neg (by simp [h])]
      simp only [List.length_cons]
      omega
    · rw [if_neg h, if_pos (by simp [h])]
      simp only [List.length_cons]
      omega

theorem concreteLoop_eq (scalars timeseries : List Dict) :
    ∀ ds : List Dict,
      (∀ d ∈ ds, (scalarMatch scalars d).isSome
        ∨ (scalarMatch timeseries d).isSome) →
      concreteLoop scalars timeseries ds = .ok
        ((ds.filter (fun d => (scalarMatch scalars d).isSome)).map
          (mergeEntry scalars),
         (ds.filter (fun d => !(scalarMatch scalars d).isSome)).map
          (mergeEntry timeseries)) := by
  intro ds
  induction ds with
  | nil => intro _; rfl
  | cons d rest ih =>
    intro h
    have hd := h d (by simp)
    have hrest : ∀ x ∈ rest, (scalarMatch scalars x).isSome
        ∨ (scalarMatch timeseries x).isSome :=
      fun x hx => h x (List.mem_cons_of_mem _ hx)
    simp only [concreteLoop]
    cases hs : scalarMatch scalars d with
    | some e =>
      obtain ⟨i, hi, he⟩ := scalarMatch_some hs
      rw [pyDictGet_of_get hi, ok_bind, he, ih hrest]
      dsimp only
      rw [ok_bind]
      dsimp only
      rw [List.filter_cons, List.filter_cons,
        if_pos (show ((scalarMatch scalars d).isSome = true) by rw [hs]; rfl),
        if_neg (show ¬((!(scalarMatch scalars d).isSome) = true) by
          rw [hs]; simp),
        List.map_cons, mergeEntry_of_some hs]
    | none =>
      have hts : ∃ e, scalarMatch timeseries d = some e := by
        rcases hd with hd | hd
        · rw [hs] at hd; cases hd
        · exact Option.isSome_iff_exists.mp hd
      obtain ⟨e, he⟩ := hts
      obtain ⟨i, hi, hje⟩ := scalarMatch_some he
      have hnone : jmespathFirstById i scalars = none := by
        rw [← scalarMatch_eq_of_get hi, hs]
      rw [pyDictGet_of_get hi, ok_bind, hnone, hje, ih hrest]
      dsimp only
      rw [ok_bind]
      dsimp only
      rw [List.filter_cons, List.filter_cons,
        if_neg (show ¬((scalarMatch scalars d).isSome = true) by
          rw [hs]; simp),
        if_pos (show ((!(scalarMatch scalars d).isSome) = true) by
          rw [hs]; rfl),
        List.map_cons, mergeEntry_of_some he]

/-- C5.  When normalization succeeds and every data entry's id matches a
scalars or timeseries entry, concretization succeeds; its scalars output is
exactly the scalars-matched data entries merged with their match, its
timeseries output exactly the remaining data entries merged with their
timeseries match — each in `data`'s iteration order — the two lengths sum
to `data`'s length (each entry lands in exactly one list, never both,
never neither), and the scenario passes through unchanged. -/
theorem claim5_concretize_partition (raw : RawJson) (n : NormalizedJson)
    (hnorm : get_normalized_json raw = .ok n)
    (hmatch : ∀ d ∈ n.oed_data, (scalarMatch n.oed_scalars d).isSome
      ∨ (scalarMatch n.oed_timeseries d).isSome) :
    get_concrete_json raw = .ok
      ⟨n.oed_scenario,
       (n.oed_data.filter (fun d => (scalarMatch n.oed_scalars d).isSome)).map
        (mergeEntry n.oed_scalars),
       (n.oed_data.filter
          (fun d => !(scalarMatch n.oed_scalars d).isSome)).map
        (mergeEntry n.oed_timeseries)⟩
    ∧ ((n.oed_data.filter
          (fun d => (scalarMatch n.oed_scalars d).isSome)).map
        (mergeEntry n.oed_scalars)).length
      + ((n.oed_data.filter
            (fun d => !(scalarMatch n.oed_scalars d).isSome)).map
          (mergeEntry n.oed_timeseries)).length
      = n.oed_data.length := by
  constructor
  · unfold get_concrete_json
    rw [hnorm, ok_bind,
      concreteLoop_eq n.oed_scalars n.oed_timeseries n.oed_data hmatch,
      ok_bind]
  · rw [List.length_map, List.length_map]
    exact length_filter_partition _ n.oed_data

theorem claim5_witness :
    get_normalized_json matchedRaw = .ok matchedNorm
    ∧ (get_concrete_json matchedRaw = .ok
        ⟨matchedNorm.oed_scenario,
         (matchedNorm.oed_data.filter
            (fun d => (scalarMatch matchedNorm.oed_scalars d).isSome)).map
          (mergeEntry matchedNorm.oed_scalars),
         (matchedNorm.oed_data.filter
            (fun d => !(scalarMatch matchedNorm.oed_scalars d).isSome)).map
          (mergeEntry matchedNorm.oed_timeseries)⟩
      ∧ ((matchedNorm.oed_data.filter
            (fun d => (scalarMatch matchedNorm.oed_scalars d).isSome)).map
          (mergeEntry matchedNorm.oed_scalars)).length
        + ((matchedNorm.oed_data.filter
              (fun d => !(scalarMatch matchedNorm.oed_scalars d).isSome)).map
            (mergeEntry matchedNorm.oed_timeseries)).length
        = matchedNorm.oed_data.length) :=
  ⟨by decide,
    claim5_concretize_partition matchedRaw matchedNorm (by decide) (by decide)⟩

theorem concreteLoop_unmatched (scalars timeseries : List Dict) :
    ∀ ds : List Dict,
      (∀ d ∈ ds, (dictGet? d "id").isSome) →
      (∃ d ∈ ds, scalarMatch scalars d = none
        ∧ scalarMatch timeseries d = none) →
      concreteLoop scalars timeseries ds = .error .attributeError := by
  intro ds
  induction ds with
  | nil => intro _ hex; simp at hex
  | cons d rest ih =>
    intro hids hex
    obtain ⟨i, hi⟩ := Option.isSome_iff_exists.mp (hids d (by simp))
    have hidrest : ∀ x ∈ rest, (dictGet? x "id").isSome :=
      fun x hx => hids x (List.mem_cons_of_mem _ hx)
    simp only [concreteLoop]
    rw [pyDictGet_of_get hi, ok_bind]
    cases hs : scalarMatch scalars d with
    | some e =>
      have hrest : ∃ x ∈ rest, scalarMatch scalars x = none
          ∧ scalarMatch timeseries x = none := by
        obtain ⟨x, hx, hx1, hx2⟩ := hex
        rcases List.mem_cons.mp hx with rfl | hx
        · rw [hs] at hx1; cases hx1
        · exact ⟨x, hx, hx1, hx2⟩
      rw [← @scalarMatch_eq_of_get scalars d i hi, hs, ih hidrest hrest]
      dsimp only
      rw [error_bind]
    | none =>
      cases hts : scalarMatch timeseries d with
      | some e =>
        have hrest : ∃ x ∈ rest, scalarMatch scalars x = none
            ∧ scalarMatch timeseries x = none := by
          obtain ⟨x, hx, hx1, hx2⟩ := hex
          rcases List.mem_cons.mp hx with rfl | hx
          · rw [hts] at hx2; cases hx2
          · exact ⟨x, hx, hx1, hx2⟩
        rw [← @scalarMatch_eq_of_get scalars d i hi, hs]
        dsimp only
        rw [← @scalarMatch_eq_of_get timeseries d i hi, hts,
          ih hidrest hrest]
        dsimp only
        rw [error_bind]
      | none =>
        rw [← @scalarMatch_eq_of_get scalars d i hi, hs]
        dsimp only
        rw [← @scalarMatch_eq_of_get timeseries d i hi, hts]

/-- C8.  A data entry whose id matches neither section makes the code
evaluate `entry.items()` on `None`: the failure is `AttributeError`, not
the spec's `UnmatchedIdentifier`. -/
theorem claim8_unmatched_counterexample :
    get_concrete_json unmatchedRaw = .error .attributeError
    ∧ get_concrete_json unmatchedRaw ≠ .error .unmatchedIdentifier := by
  refine ⟨by decide, by decide⟩

/-- C8 (amended).  For every raw response whose normalization succeeds with
each data entry carrying an id, if some data entry's id matches no scalars
entry and no timeseries entry, concretization fails with `AttributeError`
(`'NoneType' object has no attribute 'items'`); no `UnmatchedIdentifier`
error exists in the code. -/
theorem claim8_unmatched_id (raw : RawJson) (n : NormalizedJson)
    (hnorm : get_normalized_json raw = .ok n)
    (hids : ∀ d ∈ n.oed_data, (dictGet? d "id").isSome)
    (hun : ∃ d ∈ n.oed_data, scalarMatch n.oed_scalars d = none
      ∧ scalarMatch n.oed_timeseries d = none) :
    get_concrete_json raw = .error .attributeError := by
  unfold get_concrete_json
  rw [hnorm, ok_bind,
    concreteLoop_unmatched n.oed_scalars n.oed_timeseries n.oed_data hids hun,
    error_bind]

theorem claim8_witness :
    get_normalized_json unmatchedRaw = .ok
      ⟨[("id", .str "s"), ("a", .str "x")],
       [[("id", .str "D1"), ("v", .int 1)]],
       [[("id", .str "SC9"), ("r", .str "e")]],
       []⟩
    ∧ get_concrete_json unmatchedRaw = .error .attributeError :=
  ⟨by decide,
    claim8_unmatched_id unmatchedRaw
      ⟨[("id", .str "s"), ("a", .str "x")],
       [[("id", .str "D1"), ("v", .int 1)]],
       [[("id", .str "SC9"), ("r", .str "e")]],
       []⟩
      (by decide) (by decide) (by decide)⟩

/-! ## The Format Dispatcher -/

/-- C9.  An unrecognized format token does not fail with
`UnsupportedFormat`: `format_data` falls through to `return None`. -/
theorem claim9_dispatch_counterexample :
    format_data matchedRaw "bogus" = .ok .noneVal
    ∧ format_data matchedRaw "bogus" ≠ .error .unsupportedFormat := by
  refine ⟨by decide, by decide⟩

/-- C9 (amended).  Each of the five enumerated tokens dispatches to its
pipeline (`raw` returning the input unchanged), and every token outside the
enumeration makes `format_data` return Python `None` — it does not fail
with `UnsupportedFormat` (no such error exists in the code). -/
theorem claim9_dispatch_total (raw : RawJson) (s : String) :
    format_data raw "raw" = .ok (.rawJson raw)
    ∧ format_data raw "json_normalized" =
        (get_normalized_json raw).map .normalized
    ∧ format_data raw "json_concrete" = (get_concrete_json raw).map .concrete
    ∧ format_data raw "csv_normalized" =
        (get_normalized_csv raw).map .zipped
    ∧ format_data raw "csv_concrete" = (get_concrete_csv raw).map .zipped
    ∧ (s ∉ ["raw", "json_normalized", "json_concrete", "csv_normalized",
        "csv_concrete"] → format_data raw s = .ok .noneVal) := by
  refine ⟨rfl, rfl, rfl, rfl, rfl, ?_⟩
  intro hs
  simp only [List.mem_cons, List.mem_singleton, not_or] at hs
  obtain ⟨h1, h2, h3, h4, h5, -⟩ := hs
  simp only [format_data, if_neg h1, if_neg h2, if_neg h3, if_neg h4,
    if_neg h5]

theorem claim9_witness :
    "bogus" ∉ (["raw", "json_normalized", "json_concrete", "csv_normalized",
      "csv_concrete"] : List String)
    ∧ format_data matchedRaw "bogus" = .ok .noneVal
    ∧ format_data matchedRaw "raw" = .ok (.rawJson matchedRaw) :=
  ⟨by decide, (claim9_dispatch_total matchedRaw "bogus").2.2.2.2.2 (by decide),
    (claim9_dispatch_total matchedRaw "bogus").1⟩

/-! ## The Tabular Serializer on empty sections -/

theorem csvOfSection_list_nil :
    csvOfSection (Section'.list []) = .error .indexError := rfl

theorem csvOfSection_ok {s : Section'} (hother : s ≠ Section'.other)
    (hnil : s ≠ Section'.list []) :
    ∃ c, csvOfSection s = .ok c := by
  cases s with
  | dict d => exact ⟨_, rfl⟩
  | list l =>
    cases l with
    | nil => exact absurd rfl hnil
    | cons x xs => exact ⟨_, rfl⟩
  | other => exact absurd rfl hother

theorem create_zip_csv_empty_list :
    ∀ json : List (String × Section'),
      (∀ p ∈ json, p.2 ≠ Section'.other) →
      (∃ p ∈ json, p.2 = Section'.list []) →
      create_zip_csv json = .error .indexError := by
  intro json
  induction json with
  | nil => intro _ hex; simp at hex
  | cons p rest ih =>
    intro hother hex
    obtain ⟨name, sec⟩ := p
    simp only [create_zip_csv]
    by_cases hnil : sec = Section'.list []
    · subst hnil
      rw [csvOfSection_list_nil, error_bind]
    · obtain ⟨c, hc⟩ :=
        csvOfSection_ok (hother (name, sec) (by simp)) hnil
      rw [hc, ok_bind]
      have hexr : ∃ q ∈ rest, q.2 = Section'.list [] := by
        obtain ⟨q, hq, hql⟩ := hex
        rcases List.mem_cons.mp hq with rfl | hq
        · exact absurd hql hnil
        · exact ⟨q, hq, hql⟩
      rw [ih (fun q hq => hother q (List.mem_cons_of_mem _ hq)) hexr,
        error_bind]

/-- C10.  A named-tables input with an empty list section makes
`create_zip_csv` fail with `IndexError` (`data[0].keys()` on an empty
list); consequently `get_normalized_csv` / `get_concrete_csv` fail with
`IndexError` on every input whose normalized / concretized model has an
empty section, even though the corresponding JSON pipeline succeeds there
by hypothesis. -/
theorem claim10_empty_section_csv :
    (∀ json : List (String × Section'),
      (∀ p ∈ json, p.2 ≠ Section'.other) →
      (∃ p ∈ json, p.2 = Section'.list []) →
      create_zip_csv json = .error .indexError)
    ∧ (∀ (raw : RawJson) (n : NormalizedJson),
        get_normalized_json raw = .ok n →
        (n.oed_data = [] ∨ n.oed_scalars = [] ∨ n.oed_timeseries = []) →
        get_normalized_csv raw = .error .indexError)
    ∧ (∀ (raw : RawJson) (c : ConcreteJson),
        get_concrete_json raw = .ok c →
        (c.oed_scalars = [] ∨ c.oed_timeseries = []) →
        get_concrete_csv raw = .error .indexError) := by
  refine ⟨create_zip_csv_empty_list, ?_, ?_⟩
  · intro raw n hnorm hempty
    unfold get_normalized_csv
    rw [hnorm, ok_bind]
    apply create_zip_csv_empty_list
    · intro p hp
      simp only [NormalizedJson.items, List.mem_cons] at hp
      rcases hp with rfl | rfl | rfl | rfl | hp
      · simp
      · simp
      · simp
      · simp
      · simp at hp
    · rcases hempty with h | h | h
      · exact ⟨("oed_data", Section'.list n.oed_data),
          by simp [NormalizedJson.items], by rw [h]⟩
      · exact ⟨("oed_scalars", Section'.list n.oed_scalars),
          by simp [NormalizedJson.items], by rw [h]⟩
      · exact ⟨("oed_timeseries", Section'.list n.oed_timeseries),
          by simp [NormalizedJson.items], by rw [h]⟩
  · intro raw c hconc hempty
    unfold get_concrete_csv
    rw [hconc, ok_bind]
    apply create_zip_csv_empty_list
    · intro p hp
      simp only [ConcreteJson.items, List.mem_cons] at hp
      rcases hp with rfl | rfl | rfl | hp
      · simp
      · simp
      · simp
      · simp at hp
    · rcases hempty with h | h
      · exact ⟨("oed_scalars", Section'.list c.oed_scalars),
          by simp [ConcreteJson.items], by rw [h]⟩
      · exact ⟨("oed_timeseries", Section'.list c.oed_timeseries),
          by simp [ConcreteJson.items], by rw [h]⟩

theorem claim10_witness :
    get_normalized_json matchedRaw = .ok matchedNorm
    ∧ matchedNorm.oed_timeseries = []
    ∧ get_normalized_csv matchedRaw = .error .indexError :=
  ⟨by decide, rfl,
    claim10_empty_section_csv.2.1 matchedRaw matchedNorm (by decide)
      (Or.inr (Or.inr rfl))⟩

end Oedatamodel
